import Mathlib

/-!
Verification development for the op-test planner
(repository code-xD/optimism, file op-test/planner.go).

The planner discovers test parameters lazily: a scope runs its body once
along a default path, records the first freshly selected parameter, and
afterwards re-runs the same body once per remaining option of that
parameter, with the binding overridden.

The Go code is shallowly embedded as follows:
- a Go context.Context carrying parameter bindings and the
  ParameterSelector slot becomes GoContext, an association list of
  string bindings (most recent first, matching the WithValue chain)
  plus an Option-valued selector slot (Option.none models the nil
  interface value stored by the top-level Plan entry point);
- testImpl becomes TestImpl, carrying the scope context and the
  at-most-one recorded parameterSelection;
- methods that may call t.Fatalf, t.Skipf, or hit a failing type
  assertion return a StepResult describing the abort, paired with the
  scope state at the moment of the abort (Fatalf and Skipf stop the
  method before any mutation in this code);
- the recursive Plan / planCtx / exhaust machinery becomes a
  fuel-indexed interpreter over an inductive Body type standing for the
  Go test closure, producing an ordered event trace (sub-run starts and
  completed terminal executions).
-/

namespace OpTest

/-- Modelled from the spec: the pluggable ParameterSelector interface is
declared outside planner.go; per the spec it is a pure policy function
taking a parameter name and the candidate option list and returning the
subset of options to exercise. -/
abbrev ParameterSelector := String → List String → List String

/-- One recorded selection, mirroring struct parameterSelection
(planner.go lines 37-40): the parameter name and the options that were
available for it. -/
structure ParameterSelection where
  name : String
  options : List String
deriving DecidableEq, Repr

/-- Lookup in a WithValue chain of string bindings: the most recently
added binding for a name wins, and a name never bound yields none
(the nil interface value in Go). -/
def lookupParam (params : List (String × String)) (name : String) : Option String :=
  (params.find? (fun p => p.fst == name)).map Prod.snd

/-- The Go context.Context as used by the planner: the chain of
parameterCtxKey bindings plus the parameterManagerCtxKey slot holding
the ParameterSelector (none models the nil interface stored by Plan). -/
structure GoContext where
  selector : Option ParameterSelector
  params : List (String × String)

/-- Embedding of ctx.Value(parameterCtxKey(name)). -/
def GoContext.value (ctx : GoContext) (name : String) : Option String :=
  lookupParam ctx.params name

/-- Embedding of context.WithValue(ctx, parameterCtxKey(name), v). -/
def GoContext.withValue (ctx : GoContext) (name : String) (v : String) : GoContext :=
  { ctx with params := (name, v) :: ctx.params }

/-- The testImpl scope state the claims are about: the scope context and
the recorded first-seen parameterSelection (planner.go lines 43-60).
The testing.T handle, lock, and logger fields are not needed by the
claims and carry no parameter state. -/
structure TestImpl where
  ctx : GoContext
  parameterSelection : Option ParameterSelection

/-- Result of one scope-method call: ok with a value, or the branch
aborted by t.Fatalf, by t.Skipf, or by a Go panic (the failing type
assertion on a nil ParameterSelector). -/
inductive StepResult (α : Type) where
  | ok : α → StepResult α
  | fatal : String → StepResult α
  | skipped : String → StepResult α
  | panicked : String → StepResult α
deriving DecidableEq, Repr

/-- Whether a step aborted via t.Fatalf. -/
def StepResult.isFatal {α : Type} : StepResult α → Bool
  | .fatal _ => true
  | _ => false

/-- Whether a step aborted via t.Skipf. -/
def StepResult.isSkipped {α : Type} : StepResult α → Bool
  | .skipped _ => true
  | _ => false

/-- Whether a step aborted via a Go panic. -/
def StepResult.isPanicked {α : Type} : StepResult α → Bool
  | .panicked _ => true
  | _ => false

/-- Embedding of testImpl.Parameter (planner.go lines 81-87): look the
name up in the scope context; a nil value yields the empty string and
false, otherwise the bound string and true. -/
def TestImpl.parameter (imp : TestImpl) (name : String) : String × Bool :=
  match imp.ctx.value name with
  | none => ("", false)
  | some v => (v, true)

/-- Embedding of testImpl.selected (planner.go lines 162-173): reject an
empty option set fatally; reject fatally if the context already holds a
value for the name; otherwise overwrite the parameterSelection record
with the new name and options and bind the first option in the context.
Fatalf aborts before any mutation, so the aborted results return the
scope unchanged. -/
def TestImpl.selected (imp : TestImpl) (name : String) (options : List String) :
    StepResult Unit × TestImpl :=
  match options with
  | [] => (.fatal ("cannot signal empty set of options of type " ++ name), imp)
  | o :: _ =>
    match imp.ctx.value name with
    | some cur =>
      (.fatal ("test signaled options of type " ++ name ++
        " but an option already selected: " ++ cur), imp)
    | none =>
      (.ok (), { ctx := imp.ctx.withValue name o,
                 parameterSelection := some { name := name, options := options } })

/-- Embedding of testImpl.Select (planner.go lines 176-213).
Order of checks follows the source: a name already bound returns the
bound value, unless the bound value is outside the options and no
wildcard is present, which is fatal. For an unbound name the
ParameterSelector is fetched from the context by a type assertion
(a nil slot panics), consulted once, an empty selection skips the
branch, a non-subset selection without wildcard is fatal, and otherwise
the first selected option is bound and recorded via selected. -/
def TestImpl.select (imp : TestImpl) (name : String) (options : List String) :
    StepResult String × TestImpl :=
  let current := imp.ctx.value name
  let hasWildcard := options.contains "*"
  match current with
  | some cur =>
    if !hasWildcard && !options.contains cur then
      (.fatal ("presented with choice " ++ name ++ " but already assumed " ++ cur), imp)
    else
      (.ok cur, imp)
  | none =>
    match imp.ctx.selector with
    | none =>
      (.panicked "interface conversion: interface is nil, not ParameterSelector", imp)
    | some selector =>
      let selectedOptions := selector name options
      if selectedOptions.isEmpty then
        (.skipped ("none of the options for parameter " ++ name ++ " were selected"), imp)
      else if !hasWildcard && selectedOptions.any (fun o => !(options.contains o)) then
        (.fatal ("selector selected an option that was not in the set of selectable options for " ++ name), imp)
      else
        match imp.selected name selectedOptions with
        | (.ok _, imp2) => (.ok (selectedOptions.headD ""), imp2)
        | (.fatal m, imp2) => (.fatal m, imp2)
        | (.skipped m, imp2) => (.skipped m, imp2)
        | (.panicked m, imp2) => (.panicked m, imp2)

/-- A test body, standing for the Go closure func(t Planner) passed to
Plan: it can end, call Select (continuing with the returned value), open
a nested Plan sub-scope, or open a terminal Run sub-scope. -/
inductive Body where
  | done : Body
  | select : String → List String → (String → Body) → Body
  | plan : String → Body → Body → Body
  | run : String → Body → Body → Body

/-- Observable events of an execution trace: a named sub-run starting
(t.Run) and a terminal execution, that is a scope body completing
normally, recorded with the parameter bindings of that scope at
completion time. -/
inductive Event where
  | start : String → Event
  | executed : List (String × String) → Event
deriving DecidableEq, Repr

/-- Outcome of running a body or sub-run: normal completion, branch
aborted by Fatalf, branch aborted by Skipf, a propagating Go panic, or
interpreter fuel exhausted (never occurs at sufficient fuel). -/
inductive BodyOutcome where
  | ok : BodyOutcome
  | fatal : BodyOutcome
  | skippedOut : BodyOutcome
  | panicked : BodyOutcome
  | fuelOut : BodyOutcome
deriving DecidableEq, Repr

/-- Embedding of the loop of testImpl.exhaust (planner.go lines 139-155)
as the list of sub-runs the loop performs, in order. For each recorded
option: a nil context value for the recorded name is the fatal
internal-consistency error; an option equal to the bound value is
skipped; any other option yields one sub-run named
exhaust_name_option under the context with the name rebound to that
option. The context is not mutated by the loop, so collecting the
sub-runs first and executing them after is exact. -/
def exhaustSpawnList (ctx : GoContext) (name : String) :
    List String → Except String (List (String × GoContext))
  | [] => .ok []
  | opt :: rest =>
    match ctx.value name with
    | none => .error ("test framework error: selecting " ++ name ++
        " but exhaust-path is not running after default path")
    | some cur =>
      if cur == opt then
        exhaustSpawnList ctx name rest
      else
        match exhaustSpawnList ctx name rest with
        | .error e => .error e
        | .ok tail =>
          .ok (("exhaust_" ++ name ++ "_" ++ opt, ctx.withValue name opt) :: tail)

mutual

/-- Run a body in a scope, threading the scope state, mirroring the Go
closure executing against its testImpl. A nested plan is planCtx on the
current scope context (testImpl.Plan, planner.go lines 110-112); a
nested run is a leaf sub-scope without exhaustion (testImpl.Run,
planner.go lines 90-107). Fatalf and Skipf abort the enclosing sub-run
only; a panic propagates. -/
def runBody : Nat → TestImpl → Body → List Event × TestImpl × BodyOutcome
  | 0, imp, _ => ([], imp, .fuelOut)
  | _ + 1, imp, .done => ([], imp, .ok)
  | f + 1, imp, .select name options cont =>
    match imp.select name options with
    | (.ok v, imp2) => runBody f imp2 (cont v)
    | (.fatal _, imp2) => ([], imp2, .fatal)
    | (.skipped _, imp2) => ([], imp2, .skippedOut)
    | (.panicked _, imp2) => ([], imp2, .panicked)
  | f + 1, imp, .plan name sub cont =>
    let r := planCtx f imp.ctx name sub
    match r.snd with
    | .panicked => (r.fst, imp, .panicked)
    | .fuelOut => (r.fst, imp, .fuelOut)
    | _ =>
      let r2 := runBody f imp cont
      (r.fst ++ r2.fst, r2.snd)
  | f + 1, imp, .run name sub cont =>
    let r := runLeaf f imp.ctx name sub
    match r.snd with
    | .panicked => (r.fst, imp, .panicked)
    | .fuelOut => (r.fst, imp, .fuelOut)
    | _ =>
      let r2 := runBody f imp cont
      (r.fst ++ r2.fst, r2.snd)

/-- Embedding of testImpl.planCtx (planner.go lines 115-130): start a
sub-run, build a fresh sub-scope over the given context, run the body
once along the default path, and only after the body returns normally
run exhaustion on whatever the sub-scope recorded. Fatalf and Skipf
abort the sub-run before exhaustion and are contained; a panic
propagates to the parent. -/
def planCtx : Nat → GoContext → String → Body → List Event × BodyOutcome
  | 0, _, _, _ => ([], .fuelOut)
  | f + 1, ctx, name, fn =>
    let sub : TestImpl := { ctx := ctx, parameterSelection := none }
    match runBody f sub fn with
    | (es, imp2, .ok) =>
      let r2 := exhaustRun f imp2 fn
      let oc : BodyOutcome :=
        match r2.snd with
        | .panicked => .panicked
        | .fuelOut => .fuelOut
        | _ => .ok
      (.start name :: (es ++ .executed imp2.ctx.params :: r2.fst), oc)
    | (es, _, .panicked) => (.start name :: es, .panicked)
    | (es, _, .fuelOut) => (.start name :: es, .fuelOut)
    | (es, _, _) => (.start name :: es, .ok)

/-- Embedding of testImpl.Run (planner.go lines 90-107): a named leaf
sub-run over the current context; the body runs once and no exhaustion
is performed at this level. -/
def runLeaf : Nat → GoContext → String → Body → List Event × BodyOutcome
  | 0, _, _, _ => ([], .fuelOut)
  | f + 1, ctx, name, fn =>
    let sub : TestImpl := { ctx := ctx, parameterSelection := none }
    match runBody f sub fn with
    | (es, imp2, .ok) => (.start name :: (es ++ [.executed imp2.ctx.params]), .ok)
    | (es, _, .panicked) => (.start name :: es, .panicked)
    | (es, _, .fuelOut) => (.start name :: es, .fuelOut)
    | (es, _, _) => (.start name :: es, .ok)

/-- Embedding of testImpl.exhaust (planner.go lines 133-156): nothing
happens without a recorded selection; otherwise the loop either hits
the fatal nil-binding check or performs the collected sub-runs, each a
recursive planCtx over the rebound context with the same body. -/
def exhaustRun : Nat → TestImpl → Body → List Event × BodyOutcome
  | 0, _, _ => ([], .fuelOut)
  | f + 1, imp, fn =>
    match imp.parameterSelection with
    | none => ([], .ok)
    | some sel =>
      match exhaustSpawnList imp.ctx sel.name sel.options with
      | .error _ => ([], .fatal)
      | .ok spawns => runSpawns f spawns fn

/-- Execute the sub-runs collected from the exhaust loop, in order,
concatenating their traces; sub-run failures are contained, a panic
propagates. -/
def runSpawns : Nat → List (String × GoContext) → Body → List Event × BodyOutcome
  | 0, _, _ => ([], .fuelOut)
  | _ + 1, [], _ => ([], .ok)
  | f + 1, (name, ctx) :: rest, fn =>
    let r := planCtx f ctx name fn
    match r.snd with
    | .panicked => (r.fst, .panicked)
    | .fuelOut => (r.fst, .fuelOut)
    | _ =>
      let r2 := runSpawns f rest fn
      (r.fst ++ r2.fst, r2.snd)

end

/-- The root context built by the top-level Plan entry point
(planner.go lines 20-24): no parameter bindings, and the
parameterManagerCtxKey slot holding the zero value of the
ParameterSelector interface, which is nil. -/
def rootContext : GoContext :=
  { selector := none, params := [] }

/-- Embedding of the top-level Plan entry point (planner.go lines
19-33): build the root context with the nil selector, run the body once
as the sub-run named default via planCtx, then call exhaust on the root
scope, whose parameterSelection is never set by anything and is nil. -/
def Plan (fuel : Nat) (fn : Body) : List Event × BodyOutcome :=
  let imp : TestImpl := { ctx := rootContext, parameterSelection := none }
  let r := planCtx fuel imp.ctx "default" fn
  match r.snd with
  | .panicked => (r.fst, .panicked)
  | .fuelOut => (r.fst, .fuelOut)
  | _ =>
    let r2 := exhaustRun fuel imp fn
    (r.fst ++ r2.fst, r2.snd)

/-- Modelled from the spec: the selector plumbing that installs a real
ParameterSelector in the root context is outside planner.go; per the
spec the selector is a pluggable policy component consulted by Select.
This entry point is the top-level Plan with the given selector stored
in the root context slot instead of the nil interface value. -/
def planWithSelector (sel : ParameterSelector) (fuel : Nat) (fn : Body) :
    List Event × BodyOutcome :=
  let imp : TestImpl := { ctx := { selector := some sel, params := [] },
                          parameterSelection := none }
  let r := planCtx fuel imp.ctx "default" fn
  match r.snd with
  | .panicked => (r.fst, .panicked)
  | .fuelOut => (r.fst, .fuelOut)
  | _ =>
    let r2 := exhaustRun fuel imp fn
    (r.fst ++ r2.fst, r2.snd)

/-- The values a trace bound to a given parameter at each terminal
execution, in trace order. -/
def executedValues (name : String) (events : List Event) : List (Option String) :=
  events.filterMap (fun e =>
    match e with
    | .executed ps => some (lookupParam ps name)
    | _ => none)

/-- A selector that exercises every presented option, in order. -/
def allOptionsSelector : ParameterSelector := fun _ opts => opts

/-- A scope with the given selector installed and the given parameter
bindings, and no recorded selection, as built by planCtx for a fresh
sub-run. -/
def selScope (sel : ParameterSelector) (params : List (String × String)) : TestImpl :=
  { ctx := { selector := some sel, params := params }, parameterSelection := none }

theorem lookupParam_cons_self (ps : List (String × String)) (name v : String) :
    lookupParam ((name, v) :: ps) name = some v := by
  simp [lookupParam, List.find?]

/-- The exhaust loop never hits its fatal branch when the recorded name
is bound, and then performs exactly one sub-run per option differing
from the bound value, named exhaust_name_option, over the context with
the name rebound to that option. -/
theorem exhaustSpawnList_eq_ok (ctx : GoContext) (name v : String)
    (h : ctx.value name = some v) (options : List String) :
    exhaustSpawnList ctx name options =
      Except.ok ((options.filter (fun o => !(v == o))).map
        (fun o => ("exhaust_" ++ name ++ "_" ++ o, ctx.withValue name o))) := by
  induction options with
  | nil => simp [exhaustSpawnList]
  | cons opt rest ih =>
    by_cases hv : v = opt
    · subst hv
      simp [exhaustSpawnList, h, ih]
    · simp [exhaustSpawnList, h, ih, hv]

/-- C3: for every scope whose default-path body recorded a selection,
exhaustion performs, for each recorded option whose value differs from
the value bound to the recorded name in the scope context, exactly one
recursive sub-plan named exhaust_name_option over the same body and the
context with the name rebound to that option, in option order; the
option equal to the bound default is skipped by value equality. -/
theorem exhaust_spawns_one_subplan_per_differing_option
    (ctx : GoContext) (sel : ParameterSelection) (v : String)
    (imp : TestImpl) (fn : Body) (f : Nat)
    (h : ctx.value sel.name = some v)
    (hrec : imp.parameterSelection = some sel) (hctx : imp.ctx = ctx) :
    exhaustSpawnList ctx sel.name sel.options =
      Except.ok ((sel.options.filter (fun o => !(v == o))).map
        (fun o => ("exhaust_" ++ sel.name ++ "_" ++ o, ctx.withValue sel.name o))) ∧
    exhaustRun (f + 1) imp fn =
      runSpawns f ((sel.options.filter (fun o => !(v == o))).map
        (fun o => ("exhaust_" ++ sel.name ++ "_" ++ o, ctx.withValue sel.name o))) fn := by
  have hs := exhaustSpawnList_eq_ok ctx sel.name v h sel.options
  refine ⟨hs, ?_⟩
  simp [exhaustRun, hrec, hctx, hs]

/-- Context of a scope that bound p to a on its default path. -/
def c3Ctx : GoContext :=
  { selector := some allOptionsSelector, params := [("p", "a")] }

/-- Scope that recorded the selection of p from options a, b. -/
def c3Imp : TestImpl :=
  { ctx := c3Ctx, parameterSelection := some { name := "p", options := ["a", "b"] } }

theorem exhaust_spawns_one_subplan_per_differing_option_witness :
    exhaustSpawnList c3Ctx "p" ["a", "b"] =
      Except.ok (((["a", "b"].filter (fun o => !("a" == o))).map
        (fun o => ("exhaust_" ++ "p" ++ "_" ++ o, c3Ctx.withValue "p" o)))) ∧
    exhaustRun 3 c3Imp Body.done =
      runSpawns 2 (((["a", "b"].filter (fun o => !("a" == o))).map
        (fun o => ("exhaust_" ++ "p" ++ "_" ++ o, c3Ctx.withValue "p" o)))) Body.done :=
  exhaust_spawns_one_subplan_per_differing_option c3Ctx
    { name := "p", options := ["a", "b"] } "a" c3Imp Body.done 2 (by decide) rfl rfl

/-- C4: a Select of a name already bound to v is fatal when the options
have no wildcard and do not contain v, and otherwise returns v with the
scope unchanged and without consulting the ParameterSelector (the
selector slot is not touched on this path, which is why the statement
needs no hypothesis on it); in particular a descendant Select of the
bound name with just the wildcard option returns v. -/
theorem select_bound_name_consistency (imp : TestImpl) (name v : String)
    (options : List String) (h : imp.ctx.value name = some v) :
    (options.contains "*" = false → options.contains v = false →
      (imp.select name options).fst.isFatal = true ∧ (imp.select name options).snd = imp) ∧
    (options.contains "*" = true ∨ options.contains v = true →
      imp.select name options = (.ok v, imp)) ∧
    imp.select name ["*"] = (.ok v, imp) := by
  refine ⟨?_, ?_, ?_⟩
  · intro hw hc
    have hw2 : "*" ∉ options := by simpa using hw
    have hc2 : v ∉ options := by simpa using hc
    simp [TestImpl.select, h, StepResult.isFatal, hw2, hc2]
  · rintro (hw | hc)
    · have hw2 : "*" ∈ options := by simpa using hw
      simp [TestImpl.select, h, hw2]
    · have hc2 : v ∈ options := by simpa using hc
      simp [TestImpl.select, h, hc2]
  · simp [TestImpl.select, h]

/-- Scope with p bound to v by an ancestor and no selector installed:
the bound path never consults the selector slot. -/
def c4Imp : TestImpl :=
  { ctx := { selector := none, params := [("p", "v")] }, parameterSelection := none }

theorem select_bound_name_consistency_witness :
    ((c4Imp.select "p" ["x"]).fst.isFatal = true ∧ (c4Imp.select "p" ["x"]).snd = c4Imp) ∧
    c4Imp.select "p" ["*"] = (.ok "v", c4Imp) :=
  ⟨(select_bound_name_consistency c4Imp "p" "v" ["x"] (by decide)).1 (by decide) (by decide),
   (select_bound_name_consistency c4Imp "p" "v" ["x"] (by decide)).2.2⟩

/-- C5: the root context built by the top-level Plan entry point holds
the nil ParameterSelector, and in any scope whose context holds the nil
selector a Select of an unbound name panics on the type assertion
instead of consulting a selector, leaving the scope unchanged. -/
theorem plan_nil_selector_select_panics (imp : TestImpl) (name : String)
    (options : List String)
    (h1 : imp.ctx.selector = none) (h2 : imp.ctx.value name = none) :
    rootContext.selector = none ∧
    (imp.select name options).fst.isPanicked = true ∧
    (imp.select name options).snd = imp := by
  refine ⟨rfl, ?_, ?_⟩ <;> simp [TestImpl.select, h1, h2, StepResult.isPanicked]

/-- The root scope as built by Plan. -/
def rootScope : TestImpl :=
  { ctx := rootContext, parameterSelection := none }

theorem plan_nil_selector_select_panics_witness :
    rootContext.selector = none ∧
    (rootScope.select "p" ["a"]).fst.isPanicked = true ∧
    (rootScope.select "p" ["a"]).snd = rootScope :=
  plan_nil_selector_select_panics rootScope "p" ["a"] rfl rfl

/-- Reduction of Select for an unbound name with a selector installed:
the call skips on an empty selection, is fatal on a failed subset
verification without wildcard, and otherwise goes through selected. -/
theorem select_unbound_eq (imp : TestImpl) (name : String) (options : List String)
    (sel : ParameterSelector)
    (h0 : imp.ctx.value name = none) (h1 : imp.ctx.selector = some sel) :
    imp.select name options =
      (if (sel name options).isEmpty then
        ((.skipped ("none of the options for parameter " ++ name ++ " were selected") :
          StepResult String), imp)
      else if !(options.contains "*") && (sel name options).any (fun o => !(options.contains o)) then
        (.fatal ("selector selected an option that was not in the set of selectable options for " ++ name), imp)
      else
        match imp.selected name (sel name options) with
        | (.ok _, imp2) => (.ok ((sel name options).headD ""), imp2)
        | (.fatal m, imp2) => (.fatal m, imp2)
        | (.skipped m, imp2) => (.skipped m, imp2)
        | (.panicked m, imp2) => (.panicked m, imp2)) := by
  simp only [TestImpl.select, h0, h1]

/-- C6: the trace of a planned sub-run is its start, then the complete
trace of the default-path body including all nested defaults, then the
terminal execution of the default path, and only after all of that the
trace of the exhaustion sub-runs: exhaustion is invoked only once the
default-path body has returned. -/
theorem default_path_completes_before_exhaustion
    (f : Nat) (ctx : GoContext) (name : String) (fn : Body)
    (es : List Event) (imp2 : TestImpl)
    (h : runBody f { ctx := ctx, parameterSelection := none } fn = (es, imp2, .ok)) :
    (planCtx (f + 1) ctx name fn).fst =
      Event.start name ::
        (es ++ Event.executed imp2.ctx.params :: (exhaustRun f imp2 fn).fst) := by
  simp [planCtx, h]

theorem default_path_completes_before_exhaustion_witness :
    (planCtx 2 rootContext "t" Body.done).fst =
      Event.start "t" ::
        ([] ++ Event.executed rootScope.ctx.params ::
          (exhaustRun 1 rootScope Body.done).fst) :=
  default_path_completes_before_exhaustion 1 rootContext "t" Body.done [] rootScope rfl

/-- C7: with a recorded selection whose name has no value in the scope
context, exhaustion hits the fatal internal-consistency branch and
performs no sub-run; and that branch is unreachable for a record made
by the normal Select path on an unbound name, because that path binds
the first selected option before recording: after such a Select the
recorded name is bound to the returned value, so the exhaust loop
collects its sub-runs without error. -/
theorem exhaust_nil_binding_fatal_and_unreachable
    (f : Nat) (imp : TestImpl) (fn : Body) (sel : ParameterSelection)
    (opt : String) (rest : List String)
    (hrec : imp.parameterSelection = some sel)
    (hopts : sel.options = opt :: rest)
    (hnil : imp.ctx.value sel.name = none) :
    exhaustRun (f + 1) imp fn = ([], .fatal) ∧
    (∀ (imp0 imp2 : TestImpl) (name r : String) (options : List String),
      imp0.ctx.value name = none →
      imp0.select name options = (.ok r, imp2) →
      ∀ sel2 : ParameterSelection, imp2.parameterSelection = some sel2 →
        imp2.ctx.value sel2.name = some r ∧
        ∃ l, exhaustSpawnList imp2.ctx sel2.name sel2.options = Except.ok l) := by
  constructor
  · simp [exhaustRun, hrec, hopts, exhaustSpawnList, hnil]
  · intro imp0 imp2 name r options h0 hsel sel2 hrec2
    cases hselr : imp0.ctx.selector with
    | none =>
      rw [TestImpl.select, h0, hselr] at hsel
      simp at hsel
    | some s =>
      rw [select_unbound_eq imp0 name options s h0 hselr] at hsel
      cases hso : s name options with
      | nil =>
        rw [hso] at hsel
        simp at hsel
      | cons o os =>
        rw [hso] at hsel
        simp only [List.isEmpty_cons, if_false, Bool.false_eq_true] at hsel
        by_cases hcond :
            (!(options.contains "*") && ((o :: os).any (fun x => !(options.contains x)))) = true
        · rw [if_pos hcond] at hsel
          simp at hsel
        · rw [if_neg hcond] at hsel
          rw [TestImpl.selected, h0] at hsel
          simp only [List.headD_cons, Prod.mk.injEq, StepResult.ok.injEq] at hsel
          obtain ⟨hr, himp⟩ := hsel
          subst hr
          rw [← himp] at hrec2
          simp only [Option.some.injEq] at hrec2
          subst hrec2
          rw [← himp]
          constructor
          · exact lookupParam_cons_self imp0.ctx.params name o
          · have hv : (imp0.ctx.withValue name o).value name = some o :=
              lookupParam_cons_self imp0.ctx.params name o
            exact ⟨_, exhaustSpawnList_eq_ok _ _ o hv (o :: os)⟩

/-- A scope holding a recorded selection for p although its context
never bound p: the state the internal-consistency check guards
against. -/
def c7Imp : TestImpl :=
  { ctx := { selector := none, params := [] },
    parameterSelection := some { name := "p", options := ["a"] } }

theorem exhaust_nil_binding_fatal_and_unreachable_witness :
    exhaustRun 3 c7Imp Body.done = ([], .fatal) ∧
    (∀ (imp0 imp2 : TestImpl) (name r : String) (options : List String),
      imp0.ctx.value name = none →
      imp0.select name options = (.ok r, imp2) →
      ∀ sel2 : ParameterSelection, imp2.parameterSelection = some sel2 →
        imp2.ctx.value sel2.name = some r ∧
        ∃ l, exhaustSpawnList imp2.ctx sel2.name sel2.options = Except.ok l) :=
  exhaust_nil_binding_fatal_and_unreachable 2 c7Imp Body.done
    { name := "p", options := ["a"] } "a" [] rfl rfl rfl

/-- A selector that never selects anything. -/
def emptySelector : ParameterSelector := fun _ _ => []

/-- Fresh scope with the empty selector installed. -/
def c8Imp : TestImpl :=
  { ctx := { selector := some emptySelector, params := [] }, parameterSelection := none }

/-- C8: a Select of an unbound name whose selector returns no options
marks the branch skipped, not failed, and leaves the scope unchanged:
no binding and no selection record is created. -/
theorem select_empty_selection_skips (imp : TestImpl) (name : String)
    (options : List String) (sel : ParameterSelector)
    (h0 : imp.ctx.value name = none) (h1 : imp.ctx.selector = some sel)
    (h2 : sel name options = []) :
    (imp.select name options).fst.isSkipped = true ∧
    (imp.select name options).fst.isFatal = false ∧
    (imp.select name options).snd = imp := by
  rw [select_unbound_eq imp name options sel h0 h1, h2]
  simp [StepResult.isSkipped, StepResult.isFatal]

theorem select_empty_selection_skips_witness :
    (c8Imp.select "p" ["a"]).fst.isSkipped = true ∧
    (c8Imp.select "p" ["a"]).fst.isFatal = false ∧
    (c8Imp.select "p" ["a"]).snd = c8Imp :=
  select_empty_selection_skips c8Imp "p" ["a"] emptySelector rfl rfl rfl

/-- C9: for a Select of an unbound name without wildcard among the
presented options, a selector returning any option outside the
presented set is fatal with the scope unchanged; with the wildcard
present the subset verification is skipped entirely and the call
returns the first selected option even when it lies outside the
presented set. -/
theorem select_subset_verification (imp : TestImpl) (name : String)
    (options : List String) (sel : ParameterSelector)
    (h0 : imp.ctx.value name = none) (h1 : imp.ctx.selector = some sel)
    (hne : (sel name options).isEmpty = false) :
    ("*" ∉ options → (∃ b ∈ sel name options, b ∉ options) →
      (imp.select name options).fst.isFatal = true ∧ (imp.select name options).snd = imp) ∧
    ("*" ∈ options →
      (imp.select name options).fst = .ok ((sel name options).headD "")) := by
  constructor
  · intro hw hv
    obtain ⟨b, hb1, hb2⟩ := hv
    have hcond :
        (!(options.contains "*") && ((sel name options).any (fun o => !(options.contains o)))) = true := by
      simp only [Bool.and_eq_true, Bool.not_eq_true', List.any_eq_true]
      refine ⟨by simpa using hw, b, hb1, by simpa using hb2⟩
    rw [select_unbound_eq imp name options sel h0 h1]
    rw [if_neg (by simp [hne]), if_pos hcond]
    simp [StepResult.isFatal]
  · intro hw
    cases hso : sel name options with
    | nil =>
      rw [hso] at hne
      simp at hne
    | cons o os =>
      rw [select_unbound_eq imp name options sel h0 h1, hso]
      rw [TestImpl.selected, h0]
      simp [hw]

/-- A selector that always returns the single option z, whatever the
presented set. -/
def zSelector : ParameterSelector := fun _ _ => ["z"]

/-- Fresh scope with the z selector installed. -/
def zScope : TestImpl :=
  { ctx := { selector := some zSelector, params := [] }, parameterSelection := none }

theorem select_subset_verification_witness :
    (zScope.select "p" ["a", "b"]).fst.isFatal = true ∧
    (zScope.select "p" ["a", "b"]).snd = zScope :=
  (select_subset_verification zScope "p" ["a", "b"] zSelector rfl rfl rfl).1
    (by decide) ⟨"z", by decide, by decide⟩

/-- C10 counterexample: a Select of the unbound p over presented
options a, b with a selector returning the non-empty list z is fatal:
it does not return z, the context gains no binding for p, and no
selection record is created, so a non-empty selection alone does not
imply that its first element is bound and returned. -/
theorem select_unbound_nonempty_counterexample :
    zSelector "p" ["a", "b"] = ["z"] ∧
    (zScope.select "p" ["a", "b"]).fst.isFatal = true ∧
    (zScope.select "p" ["a", "b"]).fst ≠ .ok "z" ∧
    (zScope.select "p" ["a", "b"]).snd.parameter "p" = ("", false) ∧
    (zScope.select "p" ["a", "b"]).snd.parameterSelection = none := by
  decide

/-- C10 amended: for a Select of an unbound name where the selector
returns a non-empty list that passes the subset verification (wildcard
among the presented options, or every returned option among them), the
scope context is extended with the name bound to the first returned
option, the selection is recorded, the call returns that option, and a
subsequent Parameter of the name in the resulting scope yields it with
true. -/
theorem select_unbound_nonempty_binds_first
    (imp : TestImpl) (name : String) (options : List String)
    (sel : ParameterSelector) (o : String) (os : List String)
    (h0 : imp.ctx.value name = none) (h1 : imp.ctx.selector = some sel)
    (h2 : sel name options = o :: os)
    (h3 : "*" ∈ options ∨ ∀ x ∈ o :: os, x ∈ options) :
    imp.select name options =
      (.ok o, { ctx := imp.ctx.withValue name o,
                parameterSelection := some { name := name, options := o :: os } }) ∧
    (imp.select name options).snd.ctx.value name = some o ∧
    (imp.select name options).snd.parameter name = (o, true) := by
  have hcond :
      (!(options.contains "*") && ((o :: os).any (fun x => !(options.contains x)))) = false := by
    rcases h3 with hw | hall
    · simp [hw]
    · cases hb : (!(options.contains "*") && ((o :: os).any (fun x => !(options.contains x)))) with
      | false => rfl
      | true =>
        exfalso
        rw [Bool.and_eq_true] at hb
        obtain ⟨-, hany⟩ := hb
        rw [List.any_eq_true] at hany
        obtain ⟨x, hx, hxn⟩ := hany
        have hmem := hall x hx
        simp at hxn
        exact hxn hmem
  have hmain : imp.select name options =
      (.ok o, { ctx := imp.ctx.withValue name o,
                parameterSelection := some { name := name, options := o :: os } }) := by
    rw [select_unbound_eq imp name options sel h0 h1, h2]
    rw [if_neg (by simp), if_neg (by rw [hcond]; exact Bool.false_ne_true)]
    rw [TestImpl.selected, h0]
    simp
  have hv : (imp.ctx.withValue name o).value name = some o :=
    lookupParam_cons_self imp.ctx.params name o
  refine ⟨hmain, ?_, ?_⟩
  · rw [hmain]
    exact hv
  · rw [hmain]
    simp [TestImpl.parameter, hv]

theorem select_unbound_nonempty_binds_first_witness :
    (selScope allOptionsSelector []).select "p" ["a", "b"] =
      (.ok "a", { ctx := (selScope allOptionsSelector []).ctx.withValue "p" "a",
                  parameterSelection := some { name := "p", options := ["a", "b"] } }) ∧
    ((selScope allOptionsSelector []).select "p" ["a", "b"]).snd.ctx.value "p" = some "a" ∧
    ((selScope allOptionsSelector []).select "p" ["a", "b"]).snd.parameter "p" = ("a", true) :=
  select_unbound_nonempty_binds_first (selScope allOptionsSelector []) "p" ["a", "b"]
    allOptionsSelector "a" ["b"] rfl rfl rfl (Or.inr (by decide))

/-- Fresh scope with the all-options selector installed, for the
double-selection scenario. -/
def c1Scope0 : TestImpl := selScope allOptionsSelector []

/-- The scope after its body selected the unbound p from a. b. -/
def c1Scope1 : TestImpl := (c1Scope0.select "p" ["a", "b"]).snd

/-- C1: evaluation at the failing input. A body that selects the
unbound p from a, b and then the unbound q from x, y in the same scope:
the second Select does not fail, it returns x, and it silently replaces
the recorded first-seen selection of p by the selection of q, because
the guard in selected only rejects a name that already has a context
binding, never a second distinct name. The claim, the spec, and the
first-seen comment on the parameterSelection field demand a fatal error
and an unreplaced first record here. -/
theorem select_second_unbound_name_replaces_record :
    c1Scope1.parameterSelection = some { name := "p", options := ["a", "b"] } ∧
    (c1Scope1.select "q" ["x", "y"]).fst = .ok "x" ∧
    (c1Scope1.select "q" ["x", "y"]).fst.isFatal = false ∧
    (c1Scope1.select "q" ["x", "y"]).snd.parameterSelection =
      some { name := "q", options := ["x", "y"] } := by
  decide

/-- The body that selects p from a, b, c once and does nothing else. -/
def c2Body : Body := Body.select "p" ["a", "b", "c"] (fun _ => Body.done)

/-- C2: evaluation at the failing input. Run through the top-level Plan
entry point, the body panics at its first Select, because Plan stores
the nil ParameterSelector interface value in the root context: the
trace holds the start of the default sub-run and no terminal execution
at all, not the 3 executions the claim demands. With a selector
installed in the root context, the same machinery does produce exactly
3 terminal executions, bound to p a, then b, then c, the default being
the first selector-returned option. -/
theorem plan_c2_body_panics_not_three_executions :
    Plan 20 c2Body = ([Event.start "default"], .panicked) ∧
    executedValues "p" (Plan 20 c2Body).fst = [] ∧
    executedValues "p" (planWithSelector allOptionsSelector 20 c2Body).fst =
      [some "a", some "b", some "c"] ∧
    (planWithSelector allOptionsSelector 20 c2Body).snd = .ok := by
  decide

end OpTest
